import Mathlib

/-!
Verification development for the Provider Health & Fallback Resilience Engine
of the trust-ai repository (crates/forge_provider).

The Rust source is shallowly embedded: `Duration` / `Instant` values become
`Nat` (a fixed time unit; nanoseconds where the source converts explicitly),
`HashMap` becomes an association list `List (String × β)` whose keys are kept
duplicate-free by the operations that are modelled, and fallible code returns
`Except String`.  Floating-point running means are modelled over `ℚ` with the
final truncation to an integer made explicit, mirroring the source's
`as u64` casts.  Fields of source structs that none of the embedded
operations read or write (logging/serialization scaffolding) are elided and
noted in the corresponding doc comments.
-/

/-- Embedding of `str::starts_with` over the string's character list (the
library `String.startsWith` is extern-backed and does not reduce in the
kernel). -/
def strStartsWith (s : String) (pat : String) : Bool :=
  pat.data.isPrefixOf s.data

/-- Embedding of `str::replace`: every non-overlapping occurrence of the
non-empty pattern is replaced, scanning left to right.  Defined over the
character lists so that it evaluates in the kernel. -/
def replaceList (pat rep : List Char) (s : List Char) : List Char :=
  if hpat : pat = [] then s
  else
    match s with
    | [] => []
    | c :: rest =>
        if pat.isPrefixOf (c :: rest) then
          rep ++ replaceList pat rep ((c :: rest).drop pat.length)
        else
          c :: replaceList pat rep rest
termination_by s.length
decreasing_by
  · simp only [List.length_drop, List.length_cons]
    have hlen : 1 ≤ pat.length := by
      cases pat with
      | nil => exact absurd rfl hpat
      | cons a l => simp
    omega
  · simp

/-- String façade of `replaceList`. -/
def strReplace (s pat rep : String) : String :=
  ⟨replaceList pat.data rep.data s.data⟩

/-- Health status of a provider (`config/local_ai.rs`, `ProviderHealthStatus`).
Durations are `Nat`. -/
inductive ProviderHealthStatus where
  /-- Provider is healthy and responsive. -/
  | Healthy (response_time : Nat) (models_available : Nat)
      (additional_info : Option String)
  /-- Provider is responding but with issues. -/
  | Degraded (reason : String) (response_time : Nat) (models_available : Nat)
  /-- Provider is not responding or has errors. -/
  | Unhealthy (reason : String) (response_time : Nat)
deriving Repr, DecidableEq

/-- `ProviderHealthStatus::is_usable`: `Healthy` or `Degraded`. -/
def ProviderHealthStatus.is_usable : ProviderHealthStatus → Bool
  | .Healthy _ _ _ => true
  | .Degraded _ _ _ => true
  | .Unhealthy _ _ => false

/-- Whether the status is exactly `Healthy` (the pattern
`matches!(status, ProviderHealthStatus::Healthy { .. })` of the source). -/
def ProviderHealthStatus.is_healthy : ProviderHealthStatus → Bool
  | .Healthy _ _ _ => true
  | _ => false

/-- Configuration of one local provider (`config/local_ai.rs`,
`LocalProviderConfig`).  Of its fields only `preferred_models` is read by the
fallback engine; `enabled`, `provider_type`, `endpoint`, `config` and
`health_check` are carried by no embedded operation and are elided. -/
structure LocalProviderConfig where
  preferred_models : List String
deriving Repr, DecidableEq

/-- Local AI configuration (`config/local_ai.rs`, `LocalAiConfig`): the
`providers` map, embedded as an association list.  The `enabled` and
`settings` fields are not consulted by the embedded operations. -/
structure LocalAiConfig where
  providers : List (String × LocalProviderConfig)
deriving Repr, DecidableEq

/-- Fallback strategy options (`config/fallback.rs`, `FallbackStrategy`). -/
inductive FallbackStrategy where
  | Graceful
  | Immediate
  | Manual
  | None
deriving Repr, DecidableEq

/-- Configuration for provider fallback behavior (`config/fallback.rs`,
`FallbackConfig`). -/
structure FallbackConfig where
  strategy : FallbackStrategy
  cloud_providers : List String
  notify_user : Bool
  max_retries : Nat
  retry_delay_ms : Nat
  decision_timeout_seconds : Nat
  auto_return_to_local : Bool
  local_recovery_delay_seconds : Nat
deriving Repr, DecidableEq

/-- `FallbackConfig::local_recovery_delay`: seconds converted to the `Nat`
time unit (nanoseconds, as `Duration::from_secs`). -/
def FallbackConfig.local_recovery_delay (c : FallbackConfig) : Nat :=
  c.local_recovery_delay_seconds * 1000000000

/-- Context for fallback decisions (`config/fallback.rs`, `FallbackContext`). -/
structure FallbackContext where
  model_id : String
  is_streaming : Bool
  requires_tools : Bool
  previous_provider : Option String
  consecutive_failures : Nat
  time_since_last_success : Option Nat
deriving Repr, DecidableEq

/-- Result of a fallback decision (`config/fallback.rs`, `FallbackDecision`). -/
inductive FallbackDecision where
  | UseLocal (provider_name : String) (reason : String)
  | UseCloud (provider_name : String) (reason : String)
      (local_status : Option ProviderHealthStatus)
  | RequireManual (reason : String) (available_options : List String)
  | NoProvider (reason : String) (attempted_providers : List String)
deriving Repr, DecidableEq

/-- `FallbackDecision::is_local`. -/
def FallbackDecision.is_local : FallbackDecision → Bool
  | .UseLocal _ _ => true
  | _ => false

/-- `FallbackDecision::is_cloud`. -/
def FallbackDecision.is_cloud : FallbackDecision → Bool
  | .UseCloud _ _ _ => true
  | _ => false

/-- `FallbackDecision::requires_manual`. -/
def FallbackDecision.requires_manual : FallbackDecision → Bool
  | .RequireManual _ _ => true
  | _ => false

/-- `FallbackDecision::no_provider`. -/
def FallbackDecision.no_provider : FallbackDecision → Bool
  | .NoProvider _ _ => true
  | _ => false

/-- `FallbackDecision::provider_name`. -/
def FallbackDecision.provider_name : FallbackDecision → Option String
  | .UseLocal n _ => some n
  | .UseCloud n _ _ => some n
  | _ => none

/-- Fallback decision engine (`config/fallback.rs`, `FallbackEngine`): its
immutable configuration. -/
structure FallbackEngine where
  config : FallbackConfig
  local_config : LocalAiConfig
deriving Repr, DecidableEq

/-- `FallbackEngine::provider_supports_model`: a configured provider supports
the model when its preferred list is empty, or some preferred entry equals the
model id or is a prefix of it after stripping `:latest`. -/
def FallbackEngine.provider_supports_model (e : FallbackEngine)
    (provider_name : String) (model_id : String) : Bool :=
  match (e.local_config.providers.find? (fun p => p.1 = provider_name)) with
  | some (_, provider_config) =>
      if provider_config.preferred_models.isEmpty then
        true
      else
        provider_config.preferred_models.any (fun preferred =>
          preferred = model_id
            || strStartsWith model_id (strReplace preferred ":latest" ""))
  | none => false

/-- `FallbackEngine::find_healthy_local_provider`: first snapshot entry that
is exactly `Healthy` and supports the requested model. -/
def FallbackEngine.find_healthy_local_provider (e : FallbackEngine)
    (context : FallbackContext)
    (local_health : List (String × ProviderHealthStatus)) :
    Option (String × ProviderHealthStatus) :=
  local_health.find? (fun p =>
    p.2.is_healthy && e.provider_supports_model p.1 context.model_id)

/-- `FallbackEngine::find_usable_local_provider`: first snapshot entry that
`is_usable` (Healthy or Degraded) and supports the requested model. -/
def FallbackEngine.find_usable_local_provider (e : FallbackEngine)
    (context : FallbackContext)
    (local_health : List (String × ProviderHealthStatus)) :
    Option (String × ProviderHealthStatus) :=
  local_health.find? (fun p =>
    p.2.is_usable && e.provider_supports_model p.1 context.model_id)

/-- `FallbackEngine::cloud_provider_supports_features`: `openai` and
`anthropic` always; an unknown provider only when tools are not required. -/
def FallbackEngine.cloud_provider_supports_features (_e : FallbackEngine)
    (provider : String) (context : FallbackContext) : Bool :=
  match provider with
  | "openai" => true
  | "anthropic" => true
  | _ => !context.requires_tools

/-- `FallbackEngine::select_cloud_provider`: `none` when no cloud providers
are configured; else the first provider passing the feature filter, falling
back to the first configured provider when the filter is empty. -/
def FallbackEngine.select_cloud_provider (e : FallbackEngine)
    (context : FallbackContext) : Option String :=
  match e.config.cloud_providers with
  | [] => none
  | first :: _ =>
      match e.config.cloud_providers.filter
          (fun provider => e.cloud_provider_supports_features provider context) with
      | suitable :: _ => some suitable
      | [] => some first

/-- `FallbackEngine::decide_local_only` (strategy `None`). -/
def FallbackEngine.decide_local_only (e : FallbackEngine)
    (context : FallbackContext)
    (local_health : List (String × ProviderHealthStatus)) : FallbackDecision :=
  match e.find_healthy_local_provider context local_health with
  | some (name, _) =>
      .UseLocal name "Local provider available and healthy"
  | none =>
      .NoProvider "No local providers available and fallback disabled"
        (local_health.map (fun p => p.1))

/-- `FallbackEngine::decide_manual` (strategy `Manual`). -/
def FallbackEngine.decide_manual (e : FallbackEngine)
    (context : FallbackContext)
    (local_health : List (String × ProviderHealthStatus)) : FallbackDecision :=
  match e.find_healthy_local_provider context local_health with
  | some (name, _) => .UseLocal name "Local provider available"
  | none =>
      let degraded := (local_health.filter
        (fun p => match p.2 with | .Degraded _ _ _ => true | _ => false)).map
          (fun p => "local:" ++ p.1)
      let cloud := e.config.cloud_providers.map (fun p => "cloud:" ++ p)
      .RequireManual "No healthy local providers, manual selection required"
        (degraded ++ cloud)

/-- `FallbackEngine::decide_immediate` (strategy `Immediate`). -/
def FallbackEngine.decide_immediate (e : FallbackEngine)
    (context : FallbackContext)
    (local_health : List (String × ProviderHealthStatus)) : FallbackDecision :=
  match e.find_healthy_local_provider context local_health with
  | some (name, _) =>
      .UseLocal name "Local provider available and healthy"
  | none =>
      match e.select_cloud_provider context with
      | some cloud_provider =>
          .UseCloud cloud_provider
            "No healthy local providers, immediate fallback to cloud"
            ((local_health.head?).map (fun p => p.2))
      | none =>
          .NoProvider "No local or cloud providers available"
            (local_health.map (fun p => p.1))

/-- `FallbackEngine::decide_graceful` (strategy `Graceful`). -/
def FallbackEngine.decide_graceful (e : FallbackEngine)
    (context : FallbackContext)
    (local_health : List (String × ProviderHealthStatus)) : FallbackDecision :=
  match
    (if context.consecutive_failures < e.config.max_retries then
      e.find_usable_local_provider context local_health
    else none) with
  | some (name, status) =>
      let reason := match status with
        | .Healthy _ _ _ => "Local provider healthy"
        | .Degraded _ _ _ =>
            "Local provider degraded, attempting retry " ++
              toString (context.consecutive_failures + 1) ++ "/" ++
              toString e.config.max_retries
        | _ => "Local provider status unknown"
      .UseLocal name reason
  | none =>
      match e.select_cloud_provider context with
      | some cloud_provider =>
          .UseCloud cloud_provider
            ("Local providers failed after " ++
              toString context.consecutive_failures ++
              " retries, falling back to cloud")
            ((local_health.head?).map (fun p => p.2))
      | none =>
          .NoProvider "No local or cloud providers available after retries"
            (local_health.map (fun p => p.1))

/-- `FallbackEngine::decide_provider`: dispatch on the configured strategy. -/
def FallbackEngine.decide_provider (e : FallbackEngine)
    (context : FallbackContext)
    (local_health : List (String × ProviderHealthStatus)) : FallbackDecision :=
  match e.config.strategy with
  | .None => e.decide_local_only context local_health
  | .Manual => e.decide_manual context local_health
  | .Immediate => e.decide_immediate context local_health
  | .Graceful => e.decide_graceful context local_health

/-- `FallbackEngine::should_return_to_local`: `some` local provider name only
when auto-return is enabled, the current provider is a cloud provider, the
recovery delay has elapsed, and some snapshot entry is exactly `Healthy`. -/
def FallbackEngine.should_return_to_local (e : FallbackEngine)
    (current_provider : String)
    (local_health : List (String × ProviderHealthStatus))
    (time_since_fallback : Nat) : Option String :=
  if !e.config.auto_return_to_local then
    none
  else if !strStartsWith current_provider "cloud:" then
    none
  else if time_since_fallback < e.config.local_recovery_delay then
    none
  else
    ((local_health.find? (fun p => p.2.is_healthy)).map (fun p => p.1))

namespace Selection

/-- Type of provider (`selection/mod.rs`, `ProviderType`). -/
inductive ProviderType where
  | Local
  | Cloud
deriving Repr, DecidableEq

/-- Performance metrics for a provider (`selection/mod.rs`,
`ProviderMetrics`).  `avg_response_time` is in milliseconds, timestamps are
`Nat`. -/
structure ProviderMetrics where
  total_requests : Nat
  successful_requests : Nat
  avg_response_time : Nat
  last_request_time : Option Nat
  provider_type : ProviderType
deriving Repr, DecidableEq

/-- `ProviderMetrics::new`. -/
def ProviderMetrics.new (provider_type : ProviderType) : ProviderMetrics :=
  ⟨0, 0, 0, none, provider_type⟩

/-- `ProviderMetrics::success_rate` (selection variant, a fraction): guarded
to `0` when `total_requests == 0`, else `successful / total`. -/
def ProviderMetrics.success_rate (m : ProviderMetrics) : ℚ :=
  if m.total_requests = 0 then 0
  else (m.successful_requests : ℚ) / (m.total_requests : ℚ)

/-- Result of provider selection (`selection/mod.rs`, `ProviderSelection`);
the `local_health` map is embedded as an association list. -/
structure ProviderSelection where
  provider_name : String
  provider_type : ProviderType
  reason : String
  is_fallback : Bool
  local_health : Option (List (String × ProviderHealthStatus))
deriving Repr, DecidableEq

/-- Provider selection context (`selection/mod.rs`, `SelectionContext`).  The
`user_preferences` field is never read by `select_provider` (it is passed as
an ignored `_context`) and is elided. -/
structure SelectionContext where
  model_id : String
  requires_streaming : Bool
  requires_tools : Bool
  previous_provider : Option String
  consecutive_failures : Nat
deriving Repr, DecidableEq

/-- Mutable state of `ProviderSelector` (`selection/mod.rs`): the metrics
map, current provider, and time of last fallback.  The configuration,
fallback engine and health monitor are passed separately; the health
snapshot that the monitor would produce is an explicit argument of the
state-transition functions. -/
structure SelectorState where
  provider_metrics : List (String × ProviderMetrics)
  current_provider : Option String
  last_fallback_time : Option Nat
deriving Repr, DecidableEq

/-- Update of a single entry of an association list, the embedding of
`HashMap::get_mut` followed by field mutation; an absent key leaves the list
unchanged. -/
def updateEntry (l : List (String × ProviderMetrics)) (k : String)
    (f : ProviderMetrics → ProviderMetrics) : List (String × ProviderMetrics) :=
  l.map (fun p => if p.1 = k then (p.1, f p.2) else p)

/-- `ProviderSelector::check_return_to_local`: only when a cloud provider is
current and a fallback time is recorded does it consult
`FallbackEngine::should_return_to_local` with the elapsed time. -/
def check_return_to_local (e : FallbackEngine) (st : SelectorState)
    (local_health : List (String × ProviderHealthStatus)) (now : Nat) :
    Option String :=
  match st.current_provider with
  | some current =>
      if strStartsWith current "cloud:" then
        match st.last_fallback_time with
        | some fallback_time =>
            e.should_return_to_local current local_health (now - fallback_time)
        | none => none
      else none
  | none => none

/-- `ProviderSelector::convert_decision_to_selection`: `UseLocal`/`UseCloud`
become selections (the cloud branch records `last_fallback_time = now`);
`RequireManual`/`NoProvider` become errors and leave the state untouched. -/
def convert_decision_to_selection (st : SelectorState)
    (decision : FallbackDecision)
    (local_health : List (String × ProviderHealthStatus)) (now : Nat) :
    Except String ProviderSelection × SelectorState :=
  match decision with
  | .UseLocal provider_name reason =>
      (.ok ⟨provider_name, .Local, reason, false, some local_health⟩, st)
  | .UseCloud provider_name reason _ =>
      (.ok ⟨"cloud:" ++ provider_name, .Cloud, reason, true, some local_health⟩,
        { st with last_fallback_time := some now })
  | .RequireManual reason _ =>
      (.error ("Manual provider selection required: " ++ reason), st)
  | .NoProvider reason _ =>
      (.error ("No suitable provider available: " ++ reason), st)

/-- `ProviderSelector::update_selection_metrics`: bump `total_requests` and
stamp `last_request_time` for the selected provider. -/
def update_selection_metrics (st : SelectorState)
    (selection : ProviderSelection) (now : Nat) : SelectorState :=
  let pm := updateEntry st.provider_metrics selection.provider_name
    (fun m => { m with
      total_requests := m.total_requests + 1,
      last_request_time := some now })
  { st with provider_metrics := pm }

/-- The `FallbackContext` that `select_provider` builds from its
`SelectionContext` (the `FallbackContext::new().with_*` chain of the source;
`with_previous_provider` receives `unwrap_or_default()`, hence always
`some`). -/
def to_fallback_context (context : SelectionContext) : FallbackContext :=
  ⟨context.model_id, context.requires_streaming, context.requires_tools,
    some (context.previous_provider.getD ""),
    context.consecutive_failures, none⟩

/-- `ProviderSelector::select_provider`: try the return-to-local fast path,
else decide via the fallback engine and commit the accepted selection. -/
def select_provider (e : FallbackEngine) (st : SelectorState)
    (context : SelectionContext)
    (local_health : List (String × ProviderHealthStatus)) (now : Nat) :
    Except String ProviderSelection × SelectorState :=
  match check_return_to_local e st local_health now with
  | some local_provider =>
      (.ok ⟨local_provider, .Local, "Returned to healthy local provider",
          false, some local_health⟩,
        { st with current_provider := some local_provider })
  | none =>
      let decision := e.decide_provider (to_fallback_context context) local_health
      match convert_decision_to_selection st decision local_health now with
      | (.ok selection, st1) =>
          let st2 := { st1 with current_provider := some selection.provider_name }
          (.ok selection, update_selection_metrics st2 selection now)
      | (.error msg, st1) => (.error msg, st1)

/-- Truncation of a nonnegative rational to `Nat`, the embedding of the
source's `as u64` cast on a floating-point mean. -/
def ratToNat (q : ℚ) : Nat := q.floor.toNat

/-- `ProviderSelector::record_success`: for a known provider, bump
`successful_requests` and update the running mean
`(avg * (total - 1) + new) / total` (computed over `ℚ`, truncated as the
source truncates its float to `u64`).  `total_requests` is not touched here;
it is incremented by `update_selection_metrics`. -/
def record_success (st : SelectorState) (provider_name : String)
    (response_time : Nat) : SelectorState :=
  let pm := updateEntry st.provider_metrics provider_name (fun m =>
    let new_avg : ℚ :=
      ((m.avg_response_time : ℚ) * ((m.total_requests : ℚ) - 1)
        + (response_time : ℚ)) / (m.total_requests : ℚ)
    { m with
      successful_requests := m.successful_requests + 1,
      avg_response_time := ratToNat new_avg })
  { st with provider_metrics := pm }

/-- `ProviderSelector::record_failure`: the source only emits a log line; the
metrics map, current provider and fallback time are not mutated ("Metrics
are already updated in update_selection_metrics; failure tracking is handled
by the health monitor"). -/
def record_failure (st : SelectorState) (_provider_name : String)
    (_error : String) : SelectorState :=
  st

end Selection

namespace Performance

/-- Type of request being measured (`performance/mod.rs`, `RequestType`). -/
inductive RequestType where
  | Inference
  | HealthCheck
  | Discovery
  | ModelLoading
deriving Repr, DecidableEq

/-- Performance metrics for a provider (`performance/mod.rs`,
`ProviderMetrics`).  Durations are in the `Nat` time unit (nanoseconds, as
the source computes with `as_nanos`); `throughput`, being a float, is a
rational. -/
structure ProviderMetrics where
  provider_name : String
  total_requests : Nat
  successful_requests : Nat
  failed_requests : Nat
  avg_response_time : Nat
  min_response_time : Nat
  max_response_time : Nat
  p95_response_time : Nat
  p99_response_time : Nat
  throughput : ℚ
  model_loading_time : Option Nat
  memory_usage_mb : Option Nat
  cpu_usage_percent : Option ℚ
  last_updated : Nat
deriving Repr, DecidableEq

/-- `ProviderMetrics::new` (performance variant). -/
def ProviderMetrics.new (provider_name : String) (now : Nat) : ProviderMetrics :=
  ⟨provider_name, 0, 0, 0, 0, 0, 0, 0, 0, 0, none, none, none, now⟩

/-- `ProviderMetrics::success_rate` (performance variant, a percentage):
guarded to `0` when `total_requests == 0`, else
`successful / total * 100`. -/
def ProviderMetrics.success_rate (m : ProviderMetrics) : ℚ :=
  if m.total_requests = 0 then 0
  else (m.successful_requests : ℚ) / (m.total_requests : ℚ) * 100

/-- `ProviderMetrics::failure_rate`. -/
def ProviderMetrics.failure_rate (m : ProviderMetrics) : ℚ :=
  100 - m.success_rate

/-- Performance measurement for a single request (`performance/mod.rs`,
`PerformanceMeasurement`); the metadata map is an association list. -/
structure PerformanceMeasurement where
  provider_name : String
  start_time : Nat
  end_time : Nat
  success : Bool
  response_size_bytes : Option Nat
  model_name : Option String
  request_type : RequestType
  metadata : List (String × String)
deriving Repr, DecidableEq

/-- `PerformanceMeasurement::duration`. -/
def PerformanceMeasurement.duration (m : PerformanceMeasurement) : Nat :=
  m.end_time - m.start_time

/-- Performance monitoring configuration (`performance/mod.rs`,
`PerformanceConfig`).  Only `enabled` and `max_measurements` are read by the
measurement-recording path; alert thresholds, benchmark targets and the
collection interval feed the recommendation/benchmark reports, which are not
embedded here. -/
structure PerformanceConfig where
  enabled : Bool
  max_measurements : Nat
deriving Repr, DecidableEq

/-- Mutable state of `PerformanceMonitor`: the bounded measurement log and
the per-provider metrics map. -/
structure MonitorState where
  measurements : List PerformanceMeasurement
  metrics : List (String × ProviderMetrics)
deriving Repr, DecidableEq

/-- Empty monitor state (`PerformanceMonitor::new`). -/
def MonitorState.new : MonitorState := ⟨[], []⟩

/-- One metrics update (`PerformanceMonitor::update_provider_metrics`,
restricted to a single provider's entry): bump `total_requests` and exactly
one of the success/failure counters, then refresh the response-time
aggregates and the simplified 60-second-window throughput. -/
def updateOneMetrics (pm : ProviderMetrics) (m : PerformanceMeasurement)
    (now : Nat) : ProviderMetrics :=
  let pm1 := { pm with
    total_requests := pm.total_requests + 1,
    successful_requests :=
      if m.success then pm.successful_requests + 1 else pm.successful_requests,
    failed_requests :=
      if m.success then pm.failed_requests else pm.failed_requests + 1 }
  let response_time := m.duration
  let pm2 :=
    if pm1.total_requests = 1 then
      { pm1 with
        avg_response_time := response_time,
        min_response_time := response_time,
        max_response_time := response_time,
        p95_response_time := response_time,
        p99_response_time := response_time }
    else
      { pm1 with
        avg_response_time :=
          (pm1.avg_response_time * (pm1.total_requests - 1) + response_time)
            / pm1.total_requests,
        min_response_time :=
          if response_time < pm1.min_response_time then response_time
          else pm1.min_response_time,
        max_response_time :=
          if pm1.max_response_time < response_time then response_time
          else pm1.max_response_time }
  { pm2 with
    throughput := (pm2.total_requests : ℚ) / 60,
    last_updated := now }

/-- `PerformanceMonitor::update_provider_metrics`: fetch-or-create the
provider's entry (`entry().or_insert_with(ProviderMetrics::new)`), then apply
the single-entry update. -/
def update_provider_metrics (metrics : List (String × ProviderMetrics))
    (m : PerformanceMeasurement) (now : Nat) :
    List (String × ProviderMetrics) :=
  match metrics.find? (fun p => p.1 = m.provider_name) with
  | some _ =>
      metrics.map (fun p =>
        if p.1 = m.provider_name then (p.1, updateOneMetrics p.2 m now) else p)
  | none =>
      metrics ++ [(m.provider_name, updateOneMetrics (ProviderMetrics.new m.provider_name now) m now)]

/-- `PerformanceMonitor::record_measurement`: when disabled, a no-op; else
append to the measurement log (dropping the oldest entry past
`max_measurements`) and update the provider's metrics. -/
def record_measurement (config : PerformanceConfig) (st : MonitorState)
    (m : PerformanceMeasurement) (now : Nat) : MonitorState :=
  if !config.enabled then st
  else
    let pushed := st.measurements ++ [m]
    let bounded :=
      if config.max_measurements < pushed.length then pushed.drop 1 else pushed
    ⟨bounded, update_provider_metrics st.metrics m now⟩

/-- A whole run of the monitor: fold `record_measurement` over a list of
timestamped measurements, starting from the empty state. -/
def runMonitor (config : PerformanceConfig)
    (ms : List (PerformanceMeasurement × Nat)) : MonitorState :=
  ms.foldl (fun st q => record_measurement config st q.1 q.2) MonitorState.new

/-- Additivity predicate for a performance metrics map: every entry's
success and failure counters sum to its total. -/
def MetricsAdditive (l : List (String × ProviderMetrics)) : Prop :=
  ∀ q ∈ l, q.2.successful_requests + q.2.failed_requests = q.2.total_requests

end Performance

namespace Optimization

/-- Cached model information (`performance/optimization.rs`, `CachedModel`). -/
structure CachedModel where
  model_id : String
  size_bytes : Nat
  cached_at : Nat
  last_accessed : Nat
  access_count : Nat
  ttl : Nat
deriving Repr, DecidableEq

/-- Model cache (`performance/optimization.rs`, `ModelCache`): the
`models` map embedded as an association list with duplicate-free keys. -/
structure ModelCache where
  models : List (String × CachedModel)
  total_size_bytes : Nat
  max_size_bytes : Nat
deriving Repr, DecidableEq

/-- `ModelCache::new`. -/
def ModelCache.new (max_size_bytes : Nat) : ModelCache :=
  ⟨[], 0, max_size_bytes⟩

/-- Sum of `size_bytes` over the cached entries. -/
def sumSizes (l : List (String × CachedModel)) : Nat :=
  (l.map (fun p => p.2.size_bytes)).sum

/-- The selection loop of `ModelCache::evict_lru_models`: walk the entries in
ascending `last_accessed` order, collecting entries (the source collects
their keys) until the freed space reaches `space_needed`; returns the
selected entries together with the final `space_freed` accumulator. -/
def selectToEvict (space_needed : Nat) (space_freed : Nat) :
    List (String × CachedModel) → List (String × CachedModel) × Nat
  | [] => ([], space_freed)
  | p :: rest =>
      if space_needed ≤ space_freed then ([], space_freed)
      else
        let r := selectToEvict space_needed (space_freed + p.2.size_bytes) rest
        (p :: r.1, r.2)

/-- The removal loop of `ModelCache::evict_lru_models`: for each selected
key in order, `HashMap::remove` the entry and subtract its size from
`total_size_bytes` (an absent key changes nothing). -/
def removeModels (c : ModelCache) : List String → ModelCache
  | [] => c
  | k :: ks =>
      match c.models.find? (fun p => p.1 = k) with
      | some p =>
          removeModels
            { c with
              models := c.models.filter (fun q => q.1 ≠ k),
              total_size_bytes := c.total_size_bytes - p.2.size_bytes } ks
      | none => removeModels c ks

/-- `ModelCache::evict_lru_models`: sort entries by `last_accessed`, evict in
that order until `space_needed` bytes are freed; the returned flag is `false`
(the source's "Could not free enough space" error) when even evicting
everything frees too little — the removals nonetheless persist, as they do on
the source's mutable cache. -/
def ModelCache.evict_lru_models (c : ModelCache) (space_needed : Nat) :
    ModelCache × Bool :=
  let models_by_access :=
    c.models.insertionSort (fun a b => a.2.last_accessed ≤ b.2.last_accessed)
  let sel := selectToEvict space_needed 0 models_by_access
  let c1 := removeModels c (sel.1.map (fun p => p.1))
  (c1, decide (space_needed ≤ sel.2))

/-- The source's simulated model size in `apply_model_caching` (100 MB). -/
def model_size : Nat := 1024 * 1024 * 100

/-- Outcome of one `apply_model_caching` call. -/
inductive CacheOutcome where
  | hit
  | inserted
  | evictFailed
deriving Repr, DecidableEq

/-- `ModelLoadingOptimizer::apply_model_caching` on the cache state: a hit
bumps the entry's access information; a miss frees space by LRU eviction when
needed and, if that succeeds, inserts the new 100 MB entry; a failed eviction
is an error (`?`) that aborts before the insert. -/
def apply_model_caching (c : ModelCache) (provider_name : String)
    (model_name : String) (now : Nat) (cache_ttl : Nat) :
    ModelCache × CacheOutcome :=
  let cache_key := provider_name ++ ":" ++ model_name
  match c.models.find? (fun p => p.1 = cache_key) with
  | some _ =>
      let models := c.models.map (fun p =>
        if p.1 = cache_key then
          (p.1, { p.2 with last_accessed := now, access_count := p.2.access_count + 1 })
        else p)
      ({ c with models := models }, .hit)
  | none =>
      let r :=
        if c.max_size_bytes < c.total_size_bytes + model_size then
          c.evict_lru_models model_size
        else (c, true)
      if r.2 then
        let entry : CachedModel := ⟨cache_key, model_size, now, now, 1, cache_ttl⟩
        ({ r.1 with
            models := (cache_key, entry) :: r.1.models,
            total_size_bytes := r.1.total_size_bytes + model_size }, .inserted)
      else (r.1, .evictFailed)

/-- One cache request: the provider/model pair, the time of the call, and the
configured TTL. -/
structure CacheOp where
  provider_name : String
  model_name : String
  now : Nat
  cache_ttl : Nat
deriving Repr, DecidableEq

/-- A whole run of the cache: fold `apply_model_caching` over a list of
requests, starting from the empty cache with the given bound. -/
def runCache (max_size_bytes : Nat) (ops : List CacheOp) : ModelCache :=
  ops.foldl
    (fun c op => (apply_model_caching c op.provider_name op.model_name op.now op.cache_ttl).1)
    (ModelCache.new max_size_bytes)

/-- Well-formedness of a cache state: the `total_size_bytes` field agrees
with the sum over the entries (the source maintains this by construction),
keys are duplicate-free (a `HashMap`), and the size bound holds. -/
def CacheWf (c : ModelCache) : Prop :=
  c.total_size_bytes = sumSizes c.models ∧
  (c.models.map (fun p => p.1)).Nodup ∧
  c.total_size_bytes ≤ c.max_size_bytes

end Optimization

/-! Helper lemmas shared by the claim theorems. -/

/-- With a non-empty cloud provider list, `select_cloud_provider` always
produces a provider: either the first that passes the feature filter, or the
first configured one. -/
theorem select_cloud_provider_isSome (e : FallbackEngine)
    (ctx : FallbackContext) (h : e.config.cloud_providers ≠ []) :
    (e.select_cloud_provider ctx).isSome = true := by
  unfold FallbackEngine.select_cloud_provider
  match hl : e.config.cloud_providers with
  | [] => exact absurd hl h
  | first :: rest =>
    cases hf : (first :: rest).filter
        (fun provider => e.cloud_provider_supports_features provider ctx) with
    | nil => simp
    | cons a l => simp

/-- C5: when the fallback decision is `RequireManual` or `NoProvider` (and
the return-to-local fast path does not fire), `select_provider` surfaces an
error and leaves `current_provider` and `last_fallback_time` exactly as they
were (in fact the whole state is unchanged). -/
theorem select_provider_error_preserves_state (e : FallbackEngine)
    (st : Selection.SelectorState) (ctx : Selection.SelectionContext)
    (health : List (String × ProviderHealthStatus)) (now : Nat)
    (hret : Selection.check_return_to_local e st health now = none)
    (hdec : (e.decide_provider (Selection.to_fallback_context ctx) health).requires_manual = true
      ∨ (e.decide_provider (Selection.to_fallback_context ctx) health).no_provider = true) :
    (∃ msg, (Selection.select_provider e st ctx health now).1 = .error msg) ∧
    (Selection.select_provider e st ctx health now).2.current_provider
      = st.current_provider ∧
    (Selection.select_provider e st ctx health now).2.last_fallback_time
      = st.last_fallback_time := by
  unfold Selection.select_provider
  rw [hret]
  cases hd : e.decide_provider (Selection.to_fallback_context ctx) health with
  | UseLocal n r =>
    rw [hd] at hdec
    simp [FallbackDecision.requires_manual, FallbackDecision.no_provider] at hdec
  | UseCloud n r s =>
    rw [hd] at hdec
    simp [FallbackDecision.requires_manual, FallbackDecision.no_provider] at hdec
  | RequireManual r o =>
    exact ⟨⟨"Manual provider selection required: " ++ r, rfl⟩, rfl, rfl⟩
  | NoProvider r a =>
    exact ⟨⟨"No suitable provider available: " ++ r, rfl⟩, rfl, rfl⟩

/-- Witness for C5: an empty snapshot under the `None` strategy produces
`NoProvider`, the call errors, and the state is untouched. -/
theorem select_provider_error_witness :
    (∃ msg, (Selection.select_provider
        ⟨⟨.None, ["openai"], true, 3, 1000, 10, true, 60⟩, ⟨[]⟩⟩
        ⟨[("ollama", Selection.ProviderMetrics.new .Local)], none, none⟩
        ⟨"gpt-4", false, false, none, 0⟩ [] 100).1 = .error msg) ∧
    (Selection.select_provider
        ⟨⟨.None, ["openai"], true, 3, 1000, 10, true, 60⟩, ⟨[]⟩⟩
        ⟨[("ollama", Selection.ProviderMetrics.new .Local)], none, none⟩
        ⟨"gpt-4", false, false, none, 0⟩ [] 100).2.current_provider = none ∧
    (Selection.select_provider
        ⟨⟨.None, ["openai"], true, 3, 1000, 10, true, 60⟩, ⟨[]⟩⟩
        ⟨[("ollama", Selection.ProviderMetrics.new .Local)], none, none⟩
        ⟨"gpt-4", false, false, none, 0⟩ [] 100).2.last_fallback_time = none :=
  select_provider_error_preserves_state
    ⟨⟨.None, ["openai"], true, 3, 1000, 10, true, 60⟩, ⟨[]⟩⟩
    ⟨[("ollama", Selection.ProviderMetrics.new .Local)], none, none⟩
    ⟨"gpt-4", false, false, none, 0⟩ [] 100 rfl (Or.inr (by decide))

/-- Counterexample to C6 as stated: a `UseCloud` decision taken while a
cloud provider is already current still overwrites `last_fallback_time`
(from `some 5` to `some 100`); the source stamps the time on every
`UseCloud`, not only on local-to-cloud transitions. -/
theorem repeated_cloud_updates_fallback_time :
    ((Selection.select_provider
        ⟨⟨.Immediate, ["openai"], true, 3, 1000, 10, false, 60⟩, ⟨[]⟩⟩
        ⟨[], some "cloud:openai", some 5⟩
        ⟨"gpt-4", false, false, none, 0⟩ [] 100).2.last_fallback_time = some 100) ∧
    (⟨[], some "cloud:openai", some 5⟩ : Selection.SelectorState).last_fallback_time
      = some 5 ∧
    (⟨[], some "cloud:openai", some 5⟩ : Selection.SelectorState).current_provider
      = some "cloud:openai" ∧
    ((Selection.select_provider
        ⟨⟨.Immediate, ["openai"], true, 3, 1000, 10, false, 60⟩, ⟨[]⟩⟩
        ⟨[], some "cloud:openai", some 5⟩
        ⟨"gpt-4", false, false, none, 0⟩ [] 100).2.current_provider
      = some "cloud:openai") := by
  refine ⟨by decide, rfl, rfl, by decide⟩

/-- C6 (amended): `select_provider` records `last_fallback_time = now` on
every accepted `UseCloud` decision — regardless of which provider was
current before — and leaves it unchanged on `UseLocal` decisions, on error
outcomes, and on the return-to-local fast path. -/
theorem select_provider_fallback_time_characterization (e : FallbackEngine)
    (st : Selection.SelectorState) (ctx : Selection.SelectionContext)
    (health : List (String × ProviderHealthStatus)) (now : Nat) :
    (Selection.check_return_to_local e st health now = none →
      ((e.decide_provider (Selection.to_fallback_context ctx) health).is_cloud = true →
        (Selection.select_provider e st ctx health now).2.last_fallback_time = some now) ∧
      ((e.decide_provider (Selection.to_fallback_context ctx) health).is_cloud = false →
        (Selection.select_provider e st ctx health now).2.last_fallback_time
          = st.last_fallback_time)) ∧
    (∀ lp, Selection.check_return_to_local e st health now = some lp →
      (Selection.select_provider e st ctx health now).2.last_fallback_time
        = st.last_fallback_time) := by
  constructor
  · intro hret
    unfold Selection.select_provider
    rw [hret]
    cases hd : e.decide_provider (Selection.to_fallback_context ctx) health with
    | UseLocal n r =>
      exact ⟨by intro h; simp [FallbackDecision.is_cloud] at h, fun _ => rfl⟩
    | UseCloud n r s =>
      exact ⟨fun _ => rfl, by intro h; simp [FallbackDecision.is_cloud] at h⟩
    | RequireManual r o =>
      exact ⟨by intro h; simp [FallbackDecision.is_cloud] at h, fun _ => rfl⟩
    | NoProvider r a =>
      exact ⟨by intro h; simp [FallbackDecision.is_cloud] at h, fun _ => rfl⟩
  · intro lp hret
    unfold Selection.select_provider
    rw [hret]

/-- Witness for C6 (amended): the counterexample input, through the general
theorem, yields `some 100`. -/
theorem select_provider_fallback_time_witness :
    (Selection.select_provider
        ⟨⟨.Immediate, ["anthropic"], true, 3, 1000, 10, false, 60⟩, ⟨[]⟩⟩
        ⟨[], none, none⟩ ⟨"gpt-4", false, false, none, 0⟩ [] 100).2.last_fallback_time
      = some 100 :=
  ((select_provider_fallback_time_characterization
      ⟨⟨.Immediate, ["anthropic"], true, 3, 1000, 10, false, 60⟩, ⟨[]⟩⟩
      ⟨[], none, none⟩ ⟨"gpt-4", false, false, none, 0⟩ [] 100).1 rfl).1 (by decide)

/-- Counterexample to C9 as stated: `record_failure` updates no counter at
all — the source method only logs, and the selector's `ProviderMetrics` has
no failure field; the state after the call is identical. -/
theorem record_failure_is_noop :
    Selection.record_failure
      ⟨[("ollama", ⟨5, 3, 150, none, .Local⟩)], some "ollama", none⟩
      "ollama" "Connection timeout" =
    ⟨[("ollama", ⟨5, 3, 150, none, .Local⟩)], some "ollama", none⟩ := rfl

/-- C9 (amended): `record_success` bumps the provider's success counter and
reapplies the running-mean formula to its latency (leaving
`total_requests` alone — that counter is advanced by `select_provider`),
while `record_failure` mutates no selector metrics (failure tracking is
delegated to the health monitor). -/
theorem record_success_failure_semantics (st : Selection.SelectorState)
    (p : String) (rt : Nat) (err : String) :
    Selection.record_failure st p err = st ∧
    ∀ k m, (k, m) ∈ st.provider_metrics → k = p →
      ∃ m', (k, m') ∈ (Selection.record_success st p rt).provider_metrics ∧
        m'.successful_requests = m.successful_requests + 1 ∧
        m'.total_requests = m.total_requests ∧
        m'.avg_response_time = Selection.ratToNat
          (((m.avg_response_time : ℚ) * ((m.total_requests : ℚ) - 1) + (rt : ℚ))
            / (m.total_requests : ℚ)) := by
  constructor
  · rfl
  · intro k m hm hk
    subst hk
    refine ⟨{ m with
        successful_requests := m.successful_requests + 1,
        avg_response_time := Selection.ratToNat
          (((m.avg_response_time : ℚ) * ((m.total_requests : ℚ) - 1) + (rt : ℚ))
            / (m.total_requests : ℚ)) }, ?_, rfl, rfl, rfl⟩
    unfold Selection.record_success Selection.updateEntry
    have hmem := List.mem_map_of_mem (fun q : String × Selection.ProviderMetrics =>
      if q.1 = k then (q.1,
        let new_avg : ℚ :=
          ((q.2.avg_response_time : ℚ) * ((q.2.total_requests : ℚ) - 1) + (rt : ℚ))
            / (q.2.total_requests : ℚ)
        { q.2 with
          successful_requests := q.2.successful_requests + 1,
          avg_response_time := Selection.ratToNat new_avg }) else q) hm
    simpa using hmem

/-- Witness for C9 (amended) at a concrete metrics map. -/
theorem record_success_failure_witness :
    ∃ m', ("ollama", m') ∈ (Selection.record_success
        ⟨[("ollama", ⟨5, 3, 150, none, .Local⟩)], none, none⟩ "ollama" 100).provider_metrics ∧
      m'.successful_requests = 3 + 1 ∧
      m'.total_requests = 5 ∧
      m'.avg_response_time = Selection.ratToNat
        (((150 : ℚ) * ((5 : ℚ) - 1) + (100 : ℚ)) / (5 : ℚ)) :=
  (record_success_failure_semantics
      ⟨[("ollama", ⟨5, 3, 150, none, .Local⟩)], none, none⟩ "ollama" 100 "err").2
    "ollama" ⟨5, 3, 150, none, .Local⟩ (by decide) rfl

/-- On a duplicate-free cache map, the lookup by key finds exactly the
member entry with that key. -/
theorem find?_key_of_mem {l : List (String × Optimization.CachedModel)}
    {k : String} {m : Optimization.CachedModel}
    (hnd : (l.map (fun p => p.1)).Nodup) (hm : (k, m) ∈ l) :
    l.find? (fun p => p.1 = k) = some (k, m) := by
  induction l with
  | nil => simp at hm
  | cons p rest ih =>
    rcases List.mem_cons.mp hm with heq | htail
    · rw [← heq]
      exact List.find?_cons_of_pos rest (by simp)
    · by_cases hkey : p.1 = k
      · exfalso
        have hk : k ∈ rest.map (fun q => q.1) :=
          List.mem_map_of_mem (fun q => q.1) htail
        rw [List.map_cons, List.nodup_cons] at hnd
        rw [hkey] at hnd
        exact hnd.1 hk
      · rw [List.find?_cons_of_neg rest (by simp [hkey])]
        exact ih (List.nodup_cons.mp (by simpa using hnd)).2 htail

/-- Removing the entry with key `k` from a duplicate-free cache map drops
exactly its size from the total. -/
theorem sumSizes_filter_key {l : List (String × Optimization.CachedModel)}
    {k : String} {m : Optimization.CachedModel}
    (hnd : (l.map (fun p => p.1)).Nodup) (hm : (k, m) ∈ l) :
    Optimization.sumSizes (l.filter (fun q => q.1 ≠ k)) + m.size_bytes
      = Optimization.sumSizes l := by
  induction l with
  | nil => simp at hm
  | cons p rest ih =>
    rw [List.map_cons, List.nodup_cons] at hnd
    rcases List.mem_cons.mp hm with heq | htail
    · have hpk : p.1 = k := by rw [← heq]
      have hrest : rest.filter (fun q => q.1 ≠ k) = rest := by
        apply List.filter_eq_self.mpr
        intro q hq
        have : q.1 ∈ rest.map (fun r => r.1) := List.mem_map_of_mem _ hq
        by_contra hne
        simp at hne
        rw [hne, ← hpk] at this
        exact hnd.1 this
      have hsize : p.2.size_bytes = m.size_bytes := by rw [← heq]
      rw [List.filter_cons_of_neg (by simp [hpk])]
      rw [hrest]
      unfold Optimization.sumSizes
      simp [hsize]
      omega
    · have hpk : p.1 ≠ k := by
        intro hkeq
        have : k ∈ rest.map (fun q => q.1) := by
          rw [← show (k, m).1 = k from rfl]
          exact List.mem_map_of_mem _ htail
        rw [hkeq] at hnd
        exact hnd.1 this
      rw [List.filter_cons_of_pos (by simp [hpk])]
      unfold Optimization.sumSizes at ih ⊢
      simp only [List.map_cons, List.sum_cons]
      have := ih hnd.2 htail
      omega

/-- The removal loop keeps the cache well formed: the total stays the sum of
the entries, keys stay duplicate-free, the entry list only shrinks, the
total never grows, and the bound is untouched. -/
theorem removeModels_wf (ks : List String) :
    ∀ c : Optimization.ModelCache,
    c.total_size_bytes = Optimization.sumSizes c.models →
    (c.models.map (fun p => p.1)).Nodup →
    (Optimization.removeModels c ks).total_size_bytes
        = Optimization.sumSizes (Optimization.removeModels c ks).models ∧
    ((Optimization.removeModels c ks).models.map (fun p => p.1)).Nodup ∧
    (Optimization.removeModels c ks).models.Sublist c.models ∧
    (Optimization.removeModels c ks).total_size_bytes ≤ c.total_size_bytes ∧
    (Optimization.removeModels c ks).max_size_bytes = c.max_size_bytes := by
  induction ks with
  | nil =>
    intro c hsum hnd
    exact ⟨hsum, hnd, List.Sublist.refl _, Nat.le_refl _, rfl⟩
  | cons k ks ih =>
    intro c hsum hnd
    cases hf : c.models.find? (fun p => p.1 = k) with
    | none =>
      have hstep : Optimization.removeModels c (k :: ks)
          = Optimization.removeModels c ks := by
        simp only [Optimization.removeModels, hf]
      rw [hstep]
      exact ih c hsum hnd
    | some p =>
      have hstep : Optimization.removeModels c (k :: ks)
          = Optimization.removeModels { c with
              models := c.models.filter (fun q => q.1 ≠ k),
              total_size_bytes := c.total_size_bytes - p.2.size_bytes } ks := by
        simp only [Optimization.removeModels, hf]
      rw [hstep]
      have hpk : p.1 = k := by simpa using List.find?_some hf
      have hpm : (k, p.2) ∈ c.models := by
        have := List.mem_of_find?_eq_some hf
        rwa [← hpk, Prod.mk.eta]
      have hdrop := sumSizes_filter_key hnd hpm
      have hsub : (c.models.filter (fun q => q.1 ≠ k)).Sublist c.models :=
        List.filter_sublist c.models
      have hnd1 : ((c.models.filter (fun q => q.1 ≠ k)).map (fun p => p.1)).Nodup :=
        List.Nodup.sublist (hsub.map (fun p => p.1)) hnd
      have hsum1 :
          c.total_size_bytes - p.2.size_bytes
            = Optimization.sumSizes (c.models.filter (fun q => q.1 ≠ k)) := by
        omega
      rcases ih { c with
          models := c.models.filter (fun q => q.1 ≠ k),
          total_size_bytes := c.total_size_bytes - p.2.size_bytes }
        hsum1 hnd1 with ⟨h1, h2, h3, h4, h5⟩
      have h4' : (Optimization.removeModels { c with
          models := c.models.filter (fun q => q.1 ≠ k),
          total_size_bytes := c.total_size_bytes - p.2.size_bytes } ks).total_size_bytes
          ≤ c.total_size_bytes - p.2.size_bytes := h4
      have h5' : (Optimization.removeModels { c with
          models := c.models.filter (fun q => q.1 ≠ k),
          total_size_bytes := c.total_size_bytes - p.2.size_bytes } ks).max_size_bytes
          = c.max_size_bytes := h5
      exact ⟨h1, h2, h3.trans hsub, by omega, h5'⟩

/-- Removing a duplicate-free selection of member entries drops exactly the
sum of their sizes from the total. -/
theorem removeModels_total_of_entries
    (S : List (String × Optimization.CachedModel)) :
    ∀ c : Optimization.ModelCache,
    c.total_size_bytes = Optimization.sumSizes c.models →
    (c.models.map (fun p => p.1)).Nodup →
    (∀ p ∈ S, p ∈ c.models) →
    (S.map (fun p => p.1)).Nodup →
    (Optimization.removeModels c (S.map (fun p => p.1))).total_size_bytes
        + Optimization.sumSizes S = c.total_size_bytes := by
  induction S with
  | nil =>
    intro c hsum hnd _ _
    simp [Optimization.removeModels, Optimization.sumSizes]
  | cons p S ih =>
    intro c hsum hnd hmem hSnd
    rw [List.map_cons, List.nodup_cons] at hSnd
    have hpm : (p.1, p.2) ∈ c.models := by
      rw [Prod.mk.eta]
      exact hmem p (List.mem_cons_self p S)
    have hf : c.models.find? (fun q => q.1 = p.1) = some (p.1, p.2) :=
      find?_key_of_mem hnd hpm
    rw [List.map_cons]
    have hstep : Optimization.removeModels c (p.1 :: S.map (fun q => q.1))
        = Optimization.removeModels { c with
            models := c.models.filter (fun q => q.1 ≠ p.1),
            total_size_bytes := c.total_size_bytes - p.2.size_bytes }
          (S.map (fun q => q.1)) := by
      simp only [Optimization.removeModels, hf]
    rw [hstep]
    have hdrop := sumSizes_filter_key hnd hpm
    have hsub : (c.models.filter (fun q => q.1 ≠ p.1)).Sublist c.models :=
      List.filter_sublist c.models
    have hnd1 : ((c.models.filter (fun q => q.1 ≠ p.1)).map (fun q => q.1)).Nodup :=
      List.Nodup.sublist (hsub.map (fun q => q.1)) hnd
    have hsum1 :
        c.total_size_bytes - p.2.size_bytes
          = Optimization.sumSizes (c.models.filter (fun q => q.1 ≠ p.1)) := by
      omega
    have hmem1 : ∀ q ∈ S, q ∈ c.models.filter (fun r => r.1 ≠ p.1) := by
      intro q hq
      refine List.mem_filter.mpr ⟨hmem q (List.mem_cons_of_mem p hq), ?_⟩
      have hq1 : q.1 ∈ S.map (fun r => r.1) := List.mem_map_of_mem _ hq
      simp only [decide_eq_true_eq]
      intro hqe
      rw [hqe] at hq1
      exact hSnd.1 hq1
    have hrec : (Optimization.removeModels { c with
        models := c.models.filter (fun q => q.1 ≠ p.1),
        total_size_bytes := c.total_size_bytes - p.2.size_bytes }
          (S.map (fun q => q.1))).total_size_bytes + Optimization.sumSizes S
        = c.total_size_bytes - p.2.size_bytes :=
      ih { c with
        models := c.models.filter (fun q => q.1 ≠ p.1),
        total_size_bytes := c.total_size_bytes - p.2.size_bytes }
      hsum1 hnd1 hmem1 hSnd.2
    have hcons : Optimization.sumSizes (p :: S)
        = p.2.size_bytes + Optimization.sumSizes S := by
      unfold Optimization.sumSizes
      simp
    rw [hcons]
    omega

/-- The eviction-selection loop selects a sublist of its input. -/
theorem selectToEvict_sublist (needed : Nat) :
    ∀ (freed : Nat) (l : List (String × Optimization.CachedModel)),
      (Optimization.selectToEvict needed freed l).1.Sublist l := by
  intro freed l
  induction l generalizing freed with
  | nil => simp [Optimization.selectToEvict]
  | cons p rest ih =>
    unfold Optimization.selectToEvict
    by_cases h : needed ≤ freed
    · rw [if_pos h]
      exact List.nil_sublist _
    · rw [if_neg h]
      exact List.Sublist.cons₂ p (ih (freed + p.2.size_bytes))

/-- The final `space_freed` accumulator equals the initial one plus the
sizes of the selected entries. -/
theorem selectToEvict_sum (needed : Nat) :
    ∀ (freed : Nat) (l : List (String × Optimization.CachedModel)),
      (Optimization.selectToEvict needed freed l).2
        = freed + Optimization.sumSizes (Optimization.selectToEvict needed freed l).1 := by
  intro freed l
  induction l generalizing freed with
  | nil => simp [Optimization.selectToEvict, Optimization.sumSizes]
  | cons p rest ih =>
    unfold Optimization.selectToEvict
    by_cases h : needed ≤ freed
    · rw [if_pos h]
      simp [Optimization.sumSizes]
    · rw [if_neg h]
      have := ih (freed + p.2.size_bytes)
      unfold Optimization.sumSizes at this ⊢
      simp only [List.map_cons, List.sum_cons]
      omega

/-- Specification of `evict_lru_models`: the cache stays well formed, only
shrinks, keeps its bound, and when the returned flag is `true` the eviction
has freed at least `space_needed` bytes below the previous total. -/
theorem evict_lru_models_spec (c : Optimization.ModelCache) (needed : Nat)
    (hsum : c.total_size_bytes = Optimization.sumSizes c.models)
    (hnd : (c.models.map (fun p => p.1)).Nodup) :
    (c.evict_lru_models needed).1.total_size_bytes
        = Optimization.sumSizes (c.evict_lru_models needed).1.models ∧
    ((c.evict_lru_models needed).1.models.map (fun p => p.1)).Nodup ∧
    (∀ q ∈ (c.evict_lru_models needed).1.models, q ∈ c.models) ∧
    (c.evict_lru_models needed).1.total_size_bytes ≤ c.total_size_bytes ∧
    (c.evict_lru_models needed).1.max_size_bytes = c.max_size_bytes ∧
    ((c.evict_lru_models needed).2 = true →
      (c.evict_lru_models needed).1.total_size_bytes + needed
        ≤ c.total_size_bytes) := by
  unfold Optimization.ModelCache.evict_lru_models
  simp only []
  set sorted := c.models.insertionSort
    (fun a b => a.2.last_accessed ≤ b.2.last_accessed) with hsorted
  have hperm : sorted.Perm c.models := List.perm_insertionSort _ _
  set sel := Optimization.selectToEvict needed 0 sorted with hsel
  have hsub : sel.1.Sublist sorted := selectToEvict_sublist needed 0 sorted
  have hmemS : ∀ p ∈ sel.1, p ∈ c.models := fun p hp =>
    hperm.mem_iff.mp (hsub.subset hp)
  have hknd : (sel.1.map (fun p => p.1)).Nodup := by
    have hpermk : (sorted.map (fun p => p.1)).Perm (c.models.map (fun p => p.1)) :=
      hperm.map _
    exact List.Nodup.sublist (hsub.map _) (hpermk.nodup_iff.mpr hnd)
  have htot := removeModels_total_of_entries sel.1 c hsum hnd hmemS hknd
  rcases removeModels_wf (sel.1.map (fun p => p.1)) c hsum hnd with
    ⟨h1, h2, h3, h4, h5⟩
  refine ⟨h1, h2, fun q hq => h3.subset hq, h4, h5, ?_⟩
  intro hok
  have hfreed : needed ≤ sel.2 := by simpa using hok
  have hsum2 := selectToEvict_sum needed 0 sorted
  rw [← hsel] at hsum2
  omega

/-- Mapping an entry-wise update that preserves sizes preserves the size
sum. -/
theorem sumSizes_map_same (l : List (String × Optimization.CachedModel))
    (f : String × Optimization.CachedModel → String × Optimization.CachedModel)
    (hsz : ∀ p ∈ l, (f p).2.size_bytes = p.2.size_bytes) :
    Optimization.sumSizes (l.map f) = Optimization.sumSizes l := by
  induction l with
  | nil => rfl
  | cons p rest ih =>
    have h1 := hsz p (List.mem_cons_self p rest)
    have h2 := ih (fun q hq => hsz q (List.mem_cons_of_mem p hq))
    simp only [Optimization.sumSizes, List.map_cons, List.sum_cons] at h2 ⊢
    omega

/-- Mapping an entry-wise update that preserves keys preserves the key
list. -/
theorem keys_map_same (l : List (String × Optimization.CachedModel))
    (f : String × Optimization.CachedModel → String × Optimization.CachedModel)
    (hk : ∀ p ∈ l, (f p).1 = p.1) :
    (l.map f).map (fun p => p.1) = l.map (fun p => p.1) := by
  induction l with
  | nil => rfl
  | cons p rest ih =>
    simp only [List.map_cons]
    rw [hk p (List.mem_cons_self p rest),
      ih (fun q hq => hk q (List.mem_cons_of_mem p hq))]

/-- Branch equation of `apply_model_caching`: a cache hit. -/
theorem apply_model_caching_hit (c : Optimization.ModelCache)
    (pn mn : String) (now ttl : Nat) (q : String × Optimization.CachedModel)
    (hf : c.models.find? (fun p => p.1 = pn ++ ":" ++ mn) = some q) :
    Optimization.apply_model_caching c pn mn now ttl =
      ({ c with models := c.models.map (fun p =>
          if p.1 = pn ++ ":" ++ mn then
            (p.1, { p.2 with last_accessed := now, access_count := p.2.access_count + 1 })
          else p) }, .hit) := by
  simp only [Optimization.apply_model_caching, hf]

/-- Branch equation of `apply_model_caching`: a miss with room to spare. -/
theorem apply_model_caching_miss_fits (c : Optimization.ModelCache)
    (pn mn : String) (now ttl : Nat)
    (hf : c.models.find? (fun p => p.1 = pn ++ ":" ++ mn) = none)
    (hfits : ¬ c.max_size_bytes < c.total_size_bytes + Optimization.model_size) :
    Optimization.apply_model_caching c pn mn now ttl =
      ({ c with
          models := (pn ++ ":" ++ mn,
            ⟨pn ++ ":" ++ mn, Optimization.model_size, now, now, 1, ttl⟩) :: c.models,
          total_size_bytes := c.total_size_bytes + Optimization.model_size },
        .inserted) := by
  simp only [Optimization.apply_model_caching, hf, if_neg hfits]
  simp

/-- Branch equation of `apply_model_caching`: a miss that triggers LRU
eviction before the insert. -/
theorem apply_model_caching_miss_evict (c : Optimization.ModelCache)
    (pn mn : String) (now ttl : Nat)
    (hf : c.models.find? (fun p => p.1 = pn ++ ":" ++ mn) = none)
    (hneed : c.max_size_bytes < c.total_size_bytes + Optimization.model_size) :
    Optimization.apply_model_caching c pn mn now ttl =
      (if (c.evict_lru_models Optimization.model_size).2 then
        ({ (c.evict_lru_models Optimization.model_size).1 with
            models := (pn ++ ":" ++ mn,
              ⟨pn ++ ":" ++ mn, Optimization.model_size, now, now, 1, ttl⟩)
              :: (c.evict_lru_models Optimization.model_size).1.models,
            total_size_bytes :=
              (c.evict_lru_models Optimization.model_size).1.total_size_bytes
                + Optimization.model_size }, .inserted)
      else ((c.evict_lru_models Optimization.model_size).1, .evictFailed)) := by
  simp only [Optimization.apply_model_caching, hf, if_pos hneed]

/-- Each `apply_model_caching` call preserves well-formedness — in
particular the size bound — and never changes `max_size_bytes`. -/
theorem apply_model_caching_preserves (c : Optimization.ModelCache)
    (pn mn : String) (now ttl : Nat) (h : Optimization.CacheWf c) :
    Optimization.CacheWf (Optimization.apply_model_caching c pn mn now ttl).1 ∧
    (Optimization.apply_model_caching c pn mn now ttl).1.max_size_bytes
      = c.max_size_bytes := by
  obtain ⟨hsum, hnd, hle⟩ := h
  cases hf : c.models.find? (fun p => p.1 = pn ++ ":" ++ mn) with
  | some q =>
    rw [apply_model_caching_hit c pn mn now ttl q hf]
    have hsz : Optimization.sumSizes (c.models.map (fun p =>
        if p.1 = pn ++ ":" ++ mn then
          (p.1, { p.2 with last_accessed := now, access_count := p.2.access_count + 1 })
        else p)) = Optimization.sumSizes c.models := by
      apply sumSizes_map_same
      intro p _
      by_cases hp : p.1 = pn ++ ":" ++ mn <;> simp [hp]
    have hkeys := keys_map_same c.models (fun p =>
        if p.1 = pn ++ ":" ++ mn then
          (p.1, { p.2 with last_accessed := now, access_count := p.2.access_count + 1 })
        else p)
      (by
        intro p _
        by_cases hp : p.1 = pn ++ ":" ++ mn <;> simp [hp])
    refine ⟨⟨?_, ?_, ?_⟩, rfl⟩
    · simpa [hsz] using hsum
    · simpa [hkeys] using hnd
    · simpa using hle
  | none =>
    have hnotmem : (pn ++ ":" ++ mn) ∉ c.models.map (fun p => p.1) := by
      intro hmem
      rcases List.mem_map.mp hmem with ⟨p, hp, hpk⟩
      have := List.find?_eq_none.mp hf p hp
      simp [hpk] at this
    by_cases hneed : c.max_size_bytes < c.total_size_bytes + Optimization.model_size
    · rw [apply_model_caching_miss_evict c pn mn now ttl hf hneed]
      rcases evict_lru_models_spec c Optimization.model_size hsum hnd with
        ⟨e1, e2, e3, e4, e5, e6⟩
      cases hok : (c.evict_lru_models Optimization.model_size).2 with
      | false =>
        rw [if_neg (by simp [hok])]
        refine ⟨⟨e1, e2, ?_⟩, e5⟩
        show (c.evict_lru_models Optimization.model_size).1.total_size_bytes
          ≤ (c.evict_lru_models Optimization.model_size).1.max_size_bytes
        omega
      | true =>
        rw [if_pos (by simp [hok])]
        have hfreed := e6 hok
        have hnotmem1 : (pn ++ ":" ++ mn)
            ∉ (c.evict_lru_models Optimization.model_size).1.models.map
              (fun p => p.1) := by
          intro hmem
          rcases List.mem_map.mp hmem with ⟨p, hp, hpk⟩
          exact hnotmem (List.mem_map.mpr ⟨p, e3 p hp, hpk⟩)
        refine ⟨⟨?_, ?_, ?_⟩, ?_⟩
        · show (c.evict_lru_models Optimization.model_size).1.total_size_bytes
              + Optimization.model_size
            = Optimization.sumSizes ((pn ++ ":" ++ mn,
                ⟨pn ++ ":" ++ mn, Optimization.model_size, now, now, 1, ttl⟩)
                :: (c.evict_lru_models Optimization.model_size).1.models)
          simp only [Optimization.sumSizes, List.map_cons, List.sum_cons] at e1 ⊢
          omega
        · show ((Prod.mk (pn ++ ":" ++ mn)
              (⟨pn ++ ":" ++ mn, Optimization.model_size, now, now, 1, ttl⟩ :
                Optimization.CachedModel)
              :: (c.evict_lru_models Optimization.model_size).1.models).map
                (fun p => p.1)).Nodup
          simp only [List.map_cons, List.nodup_cons]
          exact ⟨hnotmem1, e2⟩
        · show (c.evict_lru_models Optimization.model_size).1.total_size_bytes
              + Optimization.model_size
            ≤ (c.evict_lru_models Optimization.model_size).1.max_size_bytes
          omega
        · show (c.evict_lru_models Optimization.model_size).1.max_size_bytes
            = c.max_size_bytes
          exact e5
    · rw [apply_model_caching_miss_fits c pn mn now ttl hf hneed]
      refine ⟨⟨?_, ?_, ?_⟩, rfl⟩
      · show c.total_size_bytes + Optimization.model_size
          = Optimization.sumSizes ((pn ++ ":" ++ mn,
              ⟨pn ++ ":" ++ mn, Optimization.model_size, now, now, 1, ttl⟩)
              :: c.models)
        simp only [Optimization.sumSizes, List.map_cons, List.sum_cons] at hsum ⊢
        omega
      · show ((Prod.mk (pn ++ ":" ++ mn)
            (⟨pn ++ ":" ++ mn, Optimization.model_size, now, now, 1, ttl⟩ :
              Optimization.CachedModel)
            :: c.models).map (fun p => p.1)).Nodup
        simp only [List.map_cons, List.nodup_cons]
        exact ⟨hnotmem, hnd⟩
      · show c.total_size_bytes + Optimization.model_size ≤ c.max_size_bytes
        omega

/-- When eviction fails, the aborted insert leaves no entry under the new
key: the `?` on `evict_lru_models` propagates before `models.insert`. -/
theorem apply_model_caching_failed_no_insert (c : Optimization.ModelCache)
    (pn mn : String) (now ttl : Nat) (h : Optimization.CacheWf c)
    (hfail : (Optimization.apply_model_caching c pn mn now ttl).2
      = Optimization.CacheOutcome.evictFailed) :
    ∀ p ∈ (Optimization.apply_model_caching c pn mn now ttl).1.models,
      p.1 ≠ pn ++ ":" ++ mn := by
  obtain ⟨hsum, hnd, _⟩ := h
  cases hf : c.models.find? (fun p => p.1 = pn ++ ":" ++ mn) with
  | some q =>
    rw [apply_model_caching_hit c pn mn now ttl q hf] at hfail
    simp at hfail
  | none =>
    have hnotmem : ∀ p ∈ c.models, p.1 ≠ pn ++ ":" ++ mn := by
      intro p hp
      have := List.find?_eq_none.mp hf p hp
      simpa using this
    by_cases hneed : c.max_size_bytes < c.total_size_bytes + Optimization.model_size
    · rw [apply_model_caching_miss_evict c pn mn now ttl hf hneed] at hfail ⊢
      rcases evict_lru_models_spec c Optimization.model_size hsum hnd with
        ⟨-, -, e3, -, -, -⟩
      cases hok : (c.evict_lru_models Optimization.model_size).2 with
      | true =>
        rw [if_pos (by simp [hok])] at hfail
        simp at hfail
      | false =>
        rw [if_neg (by simp [hok])] at hfail ⊢
        intro p hp
        exact hnotmem p (e3 p hp)
    · rw [apply_model_caching_miss_fits c pn mn now ttl hf hneed] at hfail
      simp at hfail

/-- Every cache state reached from the empty cache by a sequence of
`apply_model_caching` calls is well formed and keeps its configured bound. -/
theorem runCache_wf (max_size_bytes : Nat) (ops : List Optimization.CacheOp) :
    Optimization.CacheWf (Optimization.runCache max_size_bytes ops) ∧
    (Optimization.runCache max_size_bytes ops).max_size_bytes = max_size_bytes := by
  have hgen : ∀ (l : List Optimization.CacheOp) (c : Optimization.ModelCache),
      Optimization.CacheWf c →
      Optimization.CacheWf (l.foldl (fun c op =>
        (Optimization.apply_model_caching c op.provider_name op.model_name
          op.now op.cache_ttl).1) c) ∧
      (l.foldl (fun c op =>
        (Optimization.apply_model_caching c op.provider_name op.model_name
          op.now op.cache_ttl).1) c).max_size_bytes = c.max_size_bytes := by
    intro l
    induction l with
    | nil => exact fun c hc => ⟨hc, rfl⟩
    | cons op rest ih =>
      intro c hc
      rcases apply_model_caching_preserves c op.provider_name op.model_name
        op.now op.cache_ttl hc with ⟨hwf, hmax⟩
      rcases ih _ hwf with ⟨h1, h2⟩
      refine ⟨h1, ?_⟩
      rw [List.foldl_cons, h2, hmax]
  have hnew : Optimization.CacheWf (Optimization.ModelCache.new max_size_bytes) := by
    refine ⟨rfl, List.nodup_nil, ?_⟩
    show 0 ≤ max_size_bytes
    exact Nat.zero_le _
  exact hgen ops (Optimization.ModelCache.new max_size_bytes) hnew

/-- C7: for every sequence of cache insertions — hits, misses with room,
misses with successful LRU eviction, and misses whose eviction fails — the
sum of `size_bytes` over the cached entries stays within `max_size_bytes`,
and a failed eviction never leaves a partially inserted entry under the new
key. -/
theorem cache_size_invariant (max_size_bytes : Nat)
    (ops : List Optimization.CacheOp) (op : Optimization.CacheOp) :
    Optimization.sumSizes (Optimization.runCache max_size_bytes ops).models
      ≤ max_size_bytes ∧
    ((Optimization.apply_model_caching (Optimization.runCache max_size_bytes ops)
        op.provider_name op.model_name op.now op.cache_ttl).2
        = Optimization.CacheOutcome.evictFailed →
      ∀ p ∈ (Optimization.apply_model_caching (Optimization.runCache max_size_bytes ops)
          op.provider_name op.model_name op.now op.cache_ttl).1.models,
        p.1 ≠ op.provider_name ++ ":" ++ op.model_name) := by
  rcases runCache_wf max_size_bytes ops with ⟨⟨hsum, hnd, hle⟩, hmax⟩
  constructor
  · rw [← hsum, hmax] at *
    omega
  · intro hfail
    exact apply_model_caching_failed_no_insert _ _ _ _ _ ⟨hsum, hnd, hle⟩ hfail

/-- Witness for C7: a cache bounded at `0` bytes rejects the 100 MB insert
with a failed eviction and holds no entry afterwards. -/
theorem cache_size_invariant_witness :
    Optimization.sumSizes (Optimization.runCache 0 [⟨"ollama", "llama3", 7, 60⟩]).models ≤ 0 ∧
    (∀ p ∈ (Optimization.apply_model_caching (Optimization.runCache 0 [])
        "ollama" "llama3" 7 60).1.models,
      p.1 ≠ "ollama" ++ ":" ++ "llama3") :=
  ⟨(cache_size_invariant 0 [⟨"ollama", "llama3", 7, 60⟩] ⟨"ollama", "llama3", 7, 60⟩).1,
    (cache_size_invariant 0 [] ⟨"ollama", "llama3", 7, 60⟩).2 (by decide)⟩

/-- C10: for every `ProviderMetrics` value whose `total_requests` is zero,
`success_rate()` returns `0` instead of dividing by zero, both for the
selector's fractional rate and the performance monitor's percentage rate. -/
theorem success_rate_zero_guard (m1 : Selection.ProviderMetrics)
    (m2 : Performance.ProviderMetrics) :
    (m1.total_requests = 0 → m1.success_rate = 0) ∧
    (m2.total_requests = 0 → m2.success_rate = 0) := by
  constructor
  · intro h
    simp [Selection.ProviderMetrics.success_rate, h]
  · intro h
    simp [Performance.ProviderMetrics.success_rate, h]

/-- One measurement update preserves additivity: the total rises by one and
exactly one of the other two counters rises with it. -/
theorem updateOneMetrics_additive (pm : Performance.ProviderMetrics)
    (m : Performance.PerformanceMeasurement) (now : Nat)
    (h : pm.successful_requests + pm.failed_requests = pm.total_requests) :
    (Performance.updateOneMetrics pm m now).successful_requests
      + (Performance.updateOneMetrics pm m now).failed_requests
      = (Performance.updateOneMetrics pm m now).total_requests := by
  cases hs : m.success <;>
    simp only [Performance.updateOneMetrics, hs] <;>
    split_ifs <;> simp <;> omega

/-- `update_provider_metrics` preserves additivity of the whole map. -/
theorem update_provider_metrics_additive
    (l : List (String × Performance.ProviderMetrics))
    (m : Performance.PerformanceMeasurement) (now : Nat)
    (h : Performance.MetricsAdditive l) :
    Performance.MetricsAdditive (Performance.update_provider_metrics l m now) := by
  unfold Performance.update_provider_metrics
  cases hf : l.find? (fun p => p.1 = m.provider_name) with
  | some u =>
    intro q hq
    rcases List.mem_map.mp hq with ⟨r, hr, hrq⟩
    by_cases hkey : r.1 = m.provider_name
    · rw [if_pos hkey] at hrq
      rw [← hrq]
      exact updateOneMetrics_additive r.2 m now (h r hr)
    · rw [if_neg hkey] at hrq
      rw [← hrq]
      exact h r hr
  | none =>
    intro q hq
    rcases List.mem_append.mp hq with hql | hqr
    · exact h q hql
    · rcases List.mem_singleton.mp hqr with rfl
      exact updateOneMetrics_additive _ m now (by simp [Performance.ProviderMetrics.new])

/-- `record_measurement` preserves additivity. -/
theorem record_measurement_additive (config : Performance.PerformanceConfig)
    (st : Performance.MonitorState) (m : Performance.PerformanceMeasurement)
    (now : Nat) (h : Performance.MetricsAdditive st.metrics) :
    Performance.MetricsAdditive (Performance.record_measurement config st m now).metrics := by
  unfold Performance.record_measurement
  split
  · exact h
  · exact update_provider_metrics_additive st.metrics m now h

/-- Additivity holds after any fold of `record_measurement` from an additive
start state. -/
theorem foldl_record_measurement_additive (config : Performance.PerformanceConfig)
    (ms : List (Performance.PerformanceMeasurement × Nat)) :
    ∀ st : Performance.MonitorState, Performance.MetricsAdditive st.metrics →
      Performance.MetricsAdditive
        ((ms.foldl (fun st q => Performance.record_measurement config st q.1 q.2) st).metrics) := by
  induction ms with
  | nil => intro st h; exact h
  | cons q rest ih =>
    intro st h
    exact ih _ (record_measurement_additive config st q.1 q.2 h)

/-- C8: after every `record_measurement` call — i.e. in the state reached by
any sequence of measurements — each provider's metrics satisfy
`successful_requests + failed_requests == total_requests`. -/
theorem metrics_additivity (config : Performance.PerformanceConfig)
    (ms : List (Performance.PerformanceMeasurement × Nat))
    (p : String) (pm : Performance.ProviderMetrics)
    (hmem : (p, pm) ∈ (Performance.runMonitor config ms).metrics) :
    pm.successful_requests + pm.failed_requests = pm.total_requests :=
  foldl_record_measurement_additive config ms Performance.MonitorState.new
    (by intro q hq; simp [Performance.MonitorState.new] at hq) (p, pm) hmem

/-- Witness for C8: one successful measurement for `ollama`. -/
theorem metrics_additivity_witness :
    (⟨"ollama", 1, 1, 0, 5, 5, 5, 5, 5, ((1 : Nat) : ℚ) / 60, none, none, none, 0⟩ :
        Performance.ProviderMetrics).successful_requests
      + (⟨"ollama", 1, 1, 0, 5, 5, 5, 5, 5, ((1 : Nat) : ℚ) / 60, none, none, none, 0⟩ :
        Performance.ProviderMetrics).failed_requests
      = (⟨"ollama", 1, 1, 0, 5, 5, 5, 5, 5, ((1 : Nat) : ℚ) / 60, none, none, none, 0⟩ :
        Performance.ProviderMetrics).total_requests :=
  metrics_additivity ⟨true, 10000⟩
    [(⟨"ollama", 0, 5, true, none, none, .Inference, []⟩, 0)]
    "ollama" ⟨"ollama", 1, 1, 0, 5, 5, 5, 5, 5, ((1 : Nat) : ℚ) / 60, none, none, none, 0⟩
    (by
      have h : (Performance.runMonitor ⟨true, 10000⟩
          [(⟨"ollama", 0, 5, true, none, none, .Inference, []⟩, 0)]).metrics =
          [("ollama",
            ⟨"ollama", 1, 1, 0, 5, 5, 5, 5, 5, ((1 : Nat) : ℚ) / 60, none, none, none, 0⟩)] := by
        simp [Performance.runMonitor, Performance.record_measurement,
          Performance.update_provider_metrics, Performance.updateOneMetrics,
          Performance.MonitorState.new, Performance.ProviderMetrics.new,
          Performance.PerformanceMeasurement.duration]
      rw [h]
      exact List.mem_singleton.mpr rfl)

/-- Witness for C10 at freshly created metrics records. -/
theorem success_rate_zero_guard_witness :
    (Selection.ProviderMetrics.new Selection.ProviderType.Local).success_rate = 0 ∧
    (Performance.ProviderMetrics.new "ollama" 0).success_rate = 0 :=
  ⟨(success_rate_zero_guard (Selection.ProviderMetrics.new Selection.ProviderType.Local)
      (Performance.ProviderMetrics.new "ollama" 0)).1 rfl,
    (success_rate_zero_guard (Selection.ProviderMetrics.new Selection.ProviderType.Local)
      (Performance.ProviderMetrics.new "ollama" 0)).2 rfl⟩

/-- C4: `should_return_to_local` yields a provider exactly when auto-return
is enabled, the current provider is a cloud provider, the recovery delay has
elapsed, and some snapshot entry is exactly `Healthy` (`Degraded` does not
qualify); any returned name is that of a `Healthy` snapshot entry. -/
theorem should_return_to_local_characterization (e : FallbackEngine)
    (current : String) (health : List (String × ProviderHealthStatus))
    (elapsed : Nat) :
    ((e.should_return_to_local current health elapsed).isSome = true ↔
      (e.config.auto_return_to_local = true ∧
        strStartsWith current "cloud:" = true ∧
        e.config.local_recovery_delay ≤ elapsed ∧
        ∃ p ∈ health, p.2.is_healthy = true)) ∧
    (∀ name, e.should_return_to_local current health elapsed = some name →
      ∃ s, (name, s) ∈ health ∧ s.is_healthy = true) := by
  unfold FallbackEngine.should_return_to_local
  split_ifs with h1 h2 h3
  · simp at h1
    simp [h1]
  · simp at h2
    simp [h2]
  · simp at h1 h2
    constructor
    · constructor
      · intro hs
        simp at hs
      · rintro ⟨-, -, hle, -⟩
        omega
    · intro name hn
      simp at hn
  · simp at h1 h2 h3
    constructor
    · constructor
      · intro hs
        refine ⟨h1, h2, h3, ?_⟩
        rcases Option.isSome_iff_exists.mp hs with ⟨name, hn⟩
        rcases Option.map_eq_some'.mp hn with ⟨p, hp, _⟩
        exact ⟨p, List.mem_of_find?_eq_some hp, by simpa using List.find?_some hp⟩
      · rintro ⟨-, -, -, p, hp, hhealthy⟩
        have hfind : (health.find? (fun q => q.2.is_healthy)).isSome :=
          List.find?_isSome.mpr ⟨p, hp, hhealthy⟩
        rcases Option.isSome_iff_exists.mp hfind with ⟨q, hq⟩
        simp [hq]
    · intro name hn
      rcases Option.map_eq_some'.mp hn with ⟨p, hp, hname⟩
      refine ⟨p.2, ?_, by simpa using List.find?_some hp⟩
      have hmem := List.mem_of_find?_eq_some hp
      simpa [← hname] using hmem

/-- Witness for C4: recovery after 120 s with a 60 s delay and a healthy
`ollama` entry. -/
theorem should_return_to_local_witness :
    ∃ s, ("ollama", s) ∈ [("ollama", ProviderHealthStatus.Healthy 100 5 none)]
      ∧ s.is_healthy = true :=
  (should_return_to_local_characterization
      ⟨⟨.Graceful, ["openai"], true, 3, 1000, 10, true, 60⟩, ⟨[("ollama", ⟨[]⟩)]⟩⟩
      "cloud:openai" [("ollama", ProviderHealthStatus.Healthy 100 5 none)]
      120000000000).2 "ollama" (by decide)

/-- C3: for the `Graceful` strategy with a usable local match and a
non-empty cloud list, the decision is `UseLocal` exactly when
`consecutive_failures < max_retries`, and `UseCloud` once
`consecutive_failures` reaches `max_retries` (the boundary is a strict
`<`). -/
theorem graceful_retry_boundary (e : FallbackEngine) (ctx : FallbackContext)
    (health : List (String × ProviderHealthStatus))
    (hstrat : e.config.strategy = .Graceful)
    (husable : (e.find_usable_local_provider ctx health).isSome = true)
    (hcloud : e.config.cloud_providers ≠ []) :
    ((e.decide_provider ctx health).is_local = true ↔
      ctx.consecutive_failures < e.config.max_retries) ∧
    (e.config.max_retries ≤ ctx.consecutive_failures →
      (e.decide_provider ctx health).is_cloud = true) := by
  unfold FallbackEngine.decide_provider
  rw [hstrat]
  unfold FallbackEngine.decide_graceful
  rcases Option.isSome_iff_exists.mp husable with ⟨u, hu⟩
  have hsel := select_cloud_provider_isSome e ctx hcloud
  rcases Option.isSome_iff_exists.mp hsel with ⟨cp, hcp⟩
  by_cases hlt : ctx.consecutive_failures < e.config.max_retries
  · simp only [if_pos hlt, hu]
    constructor
    · simp [FallbackDecision.is_local, hlt]
    · intro hge
      omega
  · simp only [if_neg hlt, hcp]
    constructor
    · simp [FallbackDecision.is_local, hlt]
    · intro _
      simp [FallbackDecision.is_cloud]

/-- Counterexample to C1 as stated: with the `None` strategy, a local
provider that is merely `Degraded` — hence usable, with an empty preferred
list — is NOT selected; the source's `decide_local_only` demands exactly
`Healthy` via `find_healthy_local_provider`, so the decision is
`NoProvider`. -/
theorem none_strategy_degraded_not_selected :
    (FallbackEngine.decide_provider
      ⟨⟨.None, ["openai"], true, 3, 1000, 10, true, 60⟩, ⟨[("ollama", ⟨[]⟩)]⟩⟩
      ⟨"llama3.2:latest", false, false, none, 0, none⟩
      [("ollama", .Degraded "Slow response" 5000 3)] =
      .NoProvider "No local providers available and fallback disabled" ["ollama"]) ∧
    (ProviderHealthStatus.Degraded "Slow response" 5000 3).is_usable = true ∧
    (FallbackEngine.provider_supports_model
      ⟨⟨.None, ["openai"], true, 3, 1000, 10, true, 60⟩, ⟨[("ollama", ⟨[]⟩)]⟩⟩
      "ollama" "llama3.2:latest") = true := by
  refine ⟨?_, rfl, ?_⟩ <;> decide

/-- C1 (amended): for the `None` strategy the decision is `UseLocal` exactly
when the snapshot holds a provider that is exactly `Healthy` (not merely
usable) whose preferred-model list is empty or matches the requested model;
otherwise it is `NoProvider` listing every snapshot provider name. -/
theorem decide_local_only_characterization (e : FallbackEngine)
    (ctx : FallbackContext) (health : List (String × ProviderHealthStatus))
    (hstrat : e.config.strategy = .None) :
    ((e.decide_provider ctx health).is_local = true ↔
      ∃ p ∈ health, p.2.is_healthy = true ∧
        e.provider_supports_model p.1 ctx.model_id = true) ∧
    ((∀ p ∈ health, p.2.is_healthy = false ∨
        e.provider_supports_model p.1 ctx.model_id = false) →
      e.decide_provider ctx health =
        .NoProvider "No local providers available and fallback disabled"
          (health.map (fun p => p.1))) := by
  unfold FallbackEngine.decide_provider
  rw [hstrat]
  unfold FallbackEngine.decide_local_only
  constructor
  · cases hf : e.find_healthy_local_provider ctx health with
    | none =>
      simp only [FallbackDecision.is_local]
      constructor
      · intro h
        exact absurd h (by simp)
      · rintro ⟨p, hp, hh, hs⟩
        have : (e.find_healthy_local_provider ctx health).isSome :=
          List.find?_isSome.mpr ⟨p, hp, by simp [hh, hs]⟩
        rw [hf] at this
        simp at this
    | some u =>
      simp only [FallbackDecision.is_local]
      constructor
      · intro _
        refine ⟨u, List.mem_of_find?_eq_some hf, ?_⟩
        have := List.find?_some hf
        simpa using this
      · intro _
        trivial
  · intro hall
    cases hf : e.find_healthy_local_provider ctx health with
    | none => rfl
    | some u =>
      have hmem := List.mem_of_find?_eq_some hf
      have hpred := List.find?_some hf
      simp only [Bool.and_eq_true] at hpred
      rcases hall u hmem with h | h
      · rw [hpred.1] at h
        exact absurd h (by simp)
      · rw [hpred.2] at h
        exact absurd h (by simp)

/-- Witness for C1 (amended): a healthy `ollama` with an empty preferred
list is selected under the `None` strategy. -/
theorem decide_local_only_witness :
    (FallbackEngine.decide_provider
      ⟨⟨.None, ["openai"], true, 3, 1000, 10, true, 60⟩, ⟨[("ollama", ⟨[]⟩)]⟩⟩
      ⟨"llama3.2:latest", false, false, none, 0, none⟩
      [("ollama", .Healthy 100 5 none)]).is_local = true :=
  (decide_local_only_characterization
      ⟨⟨.None, ["openai"], true, 3, 1000, 10, true, 60⟩, ⟨[("ollama", ⟨[]⟩)]⟩⟩
      ⟨"llama3.2:latest", false, false, none, 0, none⟩
      [("ollama", .Healthy 100 5 none)] rfl).1.mpr
    ⟨("ollama", .Healthy 100 5 none), by decide, by decide, by decide⟩

/-- Counterexample to C2 as stated: with the `Immediate` strategy, cloud
list `["custom"]` and `requires_tools = true`, no configured cloud provider
covers the required features (`custom` is neither `openai` nor `anthropic`),
yet the source's `select_cloud_provider` falls back to the first configured
provider instead of returning `NoProvider`. -/
theorem immediate_unsupported_cloud_still_selected :
    (FallbackEngine.decide_provider
      ⟨⟨.Immediate, ["custom"], true, 3, 1000, 10, true, 60⟩, ⟨[]⟩⟩
      ⟨"gpt-4", false, true, none, 0, none⟩
      [("ollama", .Unhealthy "Connection refused" 0)] =
      .UseCloud "custom" "No healthy local providers, immediate fallback to cloud"
        (some (.Unhealthy "Connection refused" 0))) ∧
    (FallbackEngine.cloud_provider_supports_features
      ⟨⟨.Immediate, ["custom"], true, 3, 1000, 10, true, 60⟩, ⟨[]⟩⟩
      "custom" ⟨"gpt-4", false, true, none, 0, none⟩) = false := by
  exact ⟨by decide, by decide⟩

/-- C2 (amended): for the `Immediate` strategy with no healthy local match,
the decision is `NoProvider` exactly when the cloud list is empty; otherwise
it is `UseCloud` naming the first cloud provider passing the feature filter
when one exists, and the first configured cloud provider when none does. -/
theorem decide_immediate_cloud_characterization (e : FallbackEngine)
    (ctx : FallbackContext) (health : List (String × ProviderHealthStatus))
    (hstrat : e.config.strategy = .Immediate)
    (hnolocal : e.find_healthy_local_provider ctx health = none) :
    ((e.decide_provider ctx health).no_provider = true ↔
      e.config.cloud_providers = []) ∧
    (∀ hd tl,
      e.config.cloud_providers.filter
          (fun p => e.cloud_provider_supports_features p ctx) = hd :: tl →
      e.decide_provider ctx health =
        .UseCloud hd "No healthy local providers, immediate fallback to cloud"
          ((health.head?).map (fun p => p.2))) ∧
    (∀ hd tl, e.config.cloud_providers = hd :: tl →
      e.config.cloud_providers.filter
          (fun p => e.cloud_provider_supports_features p ctx) = [] →
      e.decide_provider ctx health =
        .UseCloud hd "No healthy local providers, immediate fallback to cloud"
          ((health.head?).map (fun p => p.2))) := by
  unfold FallbackEngine.decide_provider
  rw [hstrat]
  unfold FallbackEngine.decide_immediate
  rw [hnolocal]
  refine ⟨?_, ?_, ?_⟩
  · cases hcp : e.config.cloud_providers with
    | nil =>
      have hsel : e.select_cloud_provider ctx = none := by
        unfold FallbackEngine.select_cloud_provider
        rw [hcp]
      simp [hsel, FallbackDecision.no_provider]
    | cons a l =>
      have hsel := select_cloud_provider_isSome e ctx (by rw [hcp]; simp)
      rcases Option.isSome_iff_exists.mp hsel with ⟨cp, hcpv⟩
      rw [hcpv]
      simp [FallbackDecision.no_provider, hcp]
  · intro hd tl hfil
    have hne : e.config.cloud_providers ≠ [] := by
      intro hnil
      rw [hnil] at hfil
      simp at hfil
    have hsel : e.select_cloud_provider ctx = some hd := by
      unfold FallbackEngine.select_cloud_provider
      cases hcp : e.config.cloud_providers with
      | nil => exact absurd hcp hne
      | cons a l =>
        rw [hcp] at hfil
        simp [hfil]
    rw [hsel]
  · intro hd tl hcp hfil
    have hsel : e.select_cloud_provider ctx = some hd := by
      unfold FallbackEngine.select_cloud_provider
      rw [hcp] at hfil
      rw [hcp]
      simp [hfil]
    rw [hsel]

/-- Witness for C2 (amended): with cloud list `["openai"]` and an unhealthy
local snapshot, the filter keeps `openai` and it is selected. -/
theorem decide_immediate_cloud_witness :
    FallbackEngine.decide_provider
      ⟨⟨.Immediate, ["openai"], true, 3, 1000, 10, true, 60⟩, ⟨[]⟩⟩
      ⟨"gpt-4", false, false, none, 0, none⟩
      [("ollama", .Unhealthy "Connection refused" 0)] =
      .UseCloud "openai" "No healthy local providers, immediate fallback to cloud"
        (some (.Unhealthy "Connection refused" 0)) :=
  ((decide_immediate_cloud_characterization
      ⟨⟨.Immediate, ["openai"], true, 3, 1000, 10, true, 60⟩, ⟨[]⟩⟩
      ⟨"gpt-4", false, false, none, 0, none⟩
      [("ollama", .Unhealthy "Connection refused" 0)] rfl (by decide)).2.1
    "openai" [] (by decide))

/-- Witness for C3 at the spec's concrete boundary: `max_retries = 3`,
`consecutive_failures = 2` gives `UseLocal`; `consecutive_failures = 3`
gives `UseCloud`. -/
theorem graceful_retry_boundary_witness :
    ((FallbackEngine.decide_provider
        ⟨⟨.Graceful, ["openai"], true, 3, 1000, 10, true, 60⟩, ⟨[("ollama", ⟨[]⟩)]⟩⟩
        ⟨"llama3.2:latest", false, false, none, 2, none⟩
        [("ollama", .Healthy 100 5 none)]).is_local = true) ∧
    ((FallbackEngine.decide_provider
        ⟨⟨.Graceful, ["openai"], true, 3, 1000, 10, true, 60⟩, ⟨[("ollama", ⟨[]⟩)]⟩⟩
        ⟨"llama3.2:latest", false, false, none, 3, none⟩
        [("ollama", .Healthy 100 5 none)]).is_cloud = true) :=
  ⟨(graceful_retry_boundary
      ⟨⟨.Graceful, ["openai"], true, 3, 1000, 10, true, 60⟩, ⟨[("ollama", ⟨[]⟩)]⟩⟩
      ⟨"llama3.2:latest", false, false, none, 2, none⟩
      [("ollama", .Healthy 100 5 none)] rfl (by decide) (by decide)).1.mpr (by decide),
    (graceful_retry_boundary
      ⟨⟨.Graceful, ["openai"], true, 3, 1000, 10, true, 60⟩, ⟨[("ollama", ⟨[]⟩)]⟩⟩
      ⟨"llama3.2:latest", false, false, none, 3, none⟩
      [("ollama", .Healthy 100 5 none)] rfl (by decide) (by decide)).2 (by decide)⟩
